import Mathlib

/-!
Shallow embedding of the copyright-notice pre-commit tool
(`internal/scanner/scanner.go` and `internal/config/config.go`).

Strings are modelled as Lean `String`s (lists of characters); the two fixed
regular expressions of the scanner are modelled by executable functions whose
behaviour coincides with the Go `regexp` semantics on those patterns:

* `copyrightRegex = (?i)copyright\s*(\(c\))?\s*(\d{4})?` — every component
  after the literal word is optional, so `MatchString` holds exactly when the
  subject contains the letters of the word case-insensitively (no word
  boundary is present in the pattern);
* `yearRegex = \b(19|20)\d{2}\b` — all matches have length four, so the
  leftmost-first scan below coincides with the RE2 match enumeration.

File-system effects (`os.ReadFile`, `os.Stat`, `filepath.Walk`) are modelled
by an explicit finite file-system value `GoFS`; `filepath.Walk`'s lexical
visiting order is modelled by the list order of `GoFS.files`, and the current
calendar year (`time.Now().Year()`) is passed as an explicit parameter.
-/

namespace CopyrightTool

/-- ASCII lower-casing, modelling the `(?i)` flag and `strings.ToLower` on
the ASCII inputs this tool handles. -/
def asciiLower (c : Char) : Char :=
  if 'A' ≤ c ∧ c ≤ 'Z' then Char.ofNat (c.toNat + 32) else c

/-- Whitespace recognised by `strings.TrimSpace` (ASCII part of
`unicode.IsSpace`). -/
def isSpaceChar (c : Char) : Bool :=
  c = ' ' || c = '\t' || c = '\n' || c = '\r' || c = Char.ofNat 11 || c = Char.ofNat 12

/-- Trim whitespace from both ends of a character list. -/
def trimChars (l : List Char) : List Char :=
  ((l.dropWhile isSpaceChar).reverse.dropWhile isSpaceChar).reverse

/-- `strings.TrimSpace`. -/
def trimSpace (s : String) : String := String.mk (trimChars s.data)

/-- Boolean prefix test on character lists. -/
def isPrefixOfChars : List Char → List Char → Bool
  | [], _ => true
  | _ :: _, [] => false
  | p :: ps, c :: cs => if p = c then isPrefixOfChars ps cs else false

/-- `strings.Contains s sub`: some suffix of `s` starts with `sub`. -/
def strContainsChars : List Char → List Char → Bool
  | s, sub =>
    isPrefixOfChars sub s ||
      match s with
      | [] => false
      | _ :: cs => strContainsChars cs sub

/-- `strings.Contains` on strings. -/
def strContainsStr (s sub : String) : Bool := strContainsChars s.data sub.data

/-- `strings.TrimPrefix s pre`. -/
def trimPrefixStr (s pre : String) : String :=
  if isPrefixOfChars pre.data s.data then String.mk (s.data.drop pre.data.length) else s

/-- `strings.TrimSuffix s suf`. -/
def trimSuffixStr (s suf : String) : String :=
  if isPrefixOfChars suf.data.reverse s.data.reverse then
    String.mk (s.data.take (s.data.length - suf.data.length))
  else s

/-- `strings.ToLower` (ASCII). -/
def toLowerStr (s : String) : String := String.mk (s.data.map asciiLower)

/-- `scanner.FileType`. -/
structure FileType where
  Name : String
  Extensions : List String
  CommentStart : String
  CommentEnd : String
  LineComment : String
deriving DecidableEq

/-- `scanner.FileInfo`. Go `int` fields are modelled as `Int`; a fresh
`FileInfo{Path, Type}` leaves the remaining fields at their zero values. -/
structure FileInfo where
  Path : String
  Type' : FileType
  HasCopyright : Bool
  CopyrightYear : Int
  CopyrightNotice : String
  LineNumber : Int
deriving DecidableEq

/-- The `&FileInfo{Path: filePath, Type: *fileType}` literal of `ScanFile`:
all other fields take Go zero values. -/
def initFileInfo (path : String) (ft : FileType) : FileInfo :=
  { Path := path, Type' := ft, HasCopyright := false, CopyrightYear := 0,
    CopyrightNotice := "", LineNumber := 0 }

/-- `scanner.supportedFileTypes`. -/
def supportedFileTypes : List FileType :=
  [ { Name := "Go", Extensions := [".go"], CommentStart := "", CommentEnd := "",
      LineComment := "//" },
    { Name := "Python", Extensions := [".py"], CommentStart := "", CommentEnd := "",
      LineComment := "#" },
    { Name := "JavaScript/TypeScript", Extensions := [".js", ".ts", ".jsx", ".tsx"],
      CommentStart := "", CommentEnd := "", LineComment := "//" },
    { Name := "Java", Extensions := [".java"], CommentStart := "", CommentEnd := "",
      LineComment := "//" },
    { Name := "C/C++", Extensions := [".c", ".cpp", ".cc", ".cxx", ".h", ".hpp"],
      CommentStart := "", CommentEnd := "", LineComment := "//" },
    { Name := "Shell", Extensions := [".sh", ".bash"], CommentStart := "", CommentEnd := "",
      LineComment := "#" } ]

/-- The Go entry of `supportedFileTypes` (its head). -/
def goFileType : FileType :=
  { Name := "Go", Extensions := [".go"], CommentStart := "", CommentEnd := "",
    LineComment := "//" }

/-- `Scanner.copyrightRegex.MatchString`: the pattern
`(?i)copyright\s*(\(c\))?\s*(\d{4})?` has only optional components after the
literal letters, so `MatchString` is case-insensitive substring containment
of the word `copyright`. -/
def copyrightRegexMatch (s : String) : Bool :=
  strContainsChars (s.data.map asciiLower) "copyright".data

/-- Word characters of RE2's `\b` boundary (`[0-9A-Za-z_]`). -/
def isWordChar (c : Char) : Bool :=
  ('0' ≤ c ∧ c ≤ '9') || ('a' ≤ c ∧ c ≤ 'z') || ('A' ≤ c ∧ c ≤ 'Z') || c = '_'

/-- Left `\b` boundary check given the character preceding the candidate
match position (`none` at the start of the subject). -/
def boundaryOk (prev : Option Char) : Bool :=
  match prev with
  | none => true
  | some c => !isWordChar c

/-- Enumerate the matches of `yearRegex = \b(19|20)\d{2}\b`
(`FindAllString(s, -1)`): leftmost, non-overlapping, each of length four. -/
def yearScan (prev : Option Char) : List Char → List String
  | [] => []
  | [_] => []
  | [_, _] => []
  | [_, _, _] => []
  | c1 :: c2 :: c3 :: c4 :: rest =>
    if boundaryOk prev
        && ((c1 = '1' && c2 = '9') || (c1 = '2' && c2 = '0'))
        && c3.isDigit && c4.isDigit
        && (match rest with | [] => true | r :: _ => !isWordChar r) then
      String.mk [c1, c2, c3, c4] :: yearScan (some c4) rest
    else
      yearScan (some c1) (c2 :: c3 :: c4 :: rest)

/-- `Scanner.yearRegex.FindAllString(cleanLine, -1)`. -/
def yearRegexFindAll (s : String) : List String := yearScan none s.data

/-- `scanner.parseInt` (`fmt.Sscanf(s, "%d", &result)`): decimal value of the
leading digit run, `0` when there is none. -/
def parseInt (s : String) : Int :=
  ((s.data.takeWhile Char.isDigit).foldl (fun acc c => acc * 10 + (c.toNat - 48)) 0 : Nat)

/-- `Scanner.removeCommentMarkers`. -/
def removeCommentMarkers (line : String) (fileType : FileType) : String :=
  let cleaned := line
  let cleaned :=
    if fileType.LineComment ≠ "" then trimSpace (trimPrefixStr cleaned fileType.LineComment)
    else cleaned
  let cleaned :=
    if fileType.CommentStart ≠ "" then trimPrefixStr cleaned fileType.CommentStart else cleaned
  let cleaned :=
    if fileType.CommentEnd ≠ "" then trimSuffixStr cleaned fileType.CommentEnd else cleaned
  trimSpace cleaned

/-- The scan loop of `Scanner.analyzeCopyright` over the lines produced by
`bufio.Scanner`: the counter `lineNum` is compared against `20` before each
line and incremented for every line, blank or not; on the first line whose
cleaned text matches the copyright pattern it stops, yielding the 1-based
line number, the whitespace-trimmed raw line and the cleaned line. -/
def analyzeLoop (ft : FileType) : List String → Nat → Option (Nat × String × String)
  | [], _ => none
  | raw :: rest, lineNum =>
    if lineNum < 20 then
      let line := trimSpace raw
      if line = "" then analyzeLoop ft rest (lineNum + 1)
      else
        let cleanLine := removeCommentMarkers line ft
        if copyrightRegexMatch cleanLine then some (lineNum + 1, line, cleanLine)
        else analyzeLoop ft rest (lineNum + 1)
    else none

/-- `Scanner.analyzeCopyright`. The file content is represented by its list
of lines as produced by `bufio.Scanner`; the `info` argument is the
`FileInfo` being filled in, returned updated. -/
def analyzeCopyright (lines : List String) (info : FileInfo) : FileInfo :=
  match analyzeLoop info.Type' lines 0 with
  | none => info
  | some (n, raw, cleanLine) =>
    let info' := { info with HasCopyright := true, CopyrightNotice := raw,
                             LineNumber := (n : Int) }
    match yearRegexFindAll cleanLine with
    | [] => info'
    | y :: ys =>
      let year := parseInt ((y :: ys).getLast (List.cons_ne_nil y ys))
      if year > 0 then { info' with CopyrightYear := year } else info'

/-- `path/filepath.Ext`: the suffix of the final path element starting at its
last dot, empty when the final element has no dot. -/
def filepathExt (p : String) : String :=
  let revBase := p.data.reverse.takeWhile (fun c => c ≠ '/')
  if revBase.contains '.' then
    String.mk ('.' :: (revBase.takeWhile (fun c => c ≠ '.')).reverse)
  else ""

/-- `path/filepath.Base`. -/
def filepathBase (p : String) : String :=
  if p = "" then "."
  else
    let noTrail := p.data.reverse.dropWhile (fun c => c = '/')
    if noTrail = [] then "/" else String.mk (noTrail.takeWhile (fun c => c ≠ '/')).reverse

/-- `Scanner.detectFileType`: first table entry owning the lower-cased
extension. -/
def detectFileType (filePath : String) : Option FileType :=
  let ext := toLowerStr (filepathExt filePath)
  supportedFileTypes.find? (fun ft => ft.Extensions.contains ext)

/-- The file system seen by the scanner: `files` maps a path to its content
(given as the list of its lines; `none` models an unreadable file), `dirs`
lists the directory paths. `filepath.Walk`'s lexical visiting order is
modelled by the order of `files`. -/
structure GoFS where
  files : List (String × Option (List String))
  dirs : List String
deriving DecidableEq

/-- `os.ReadFile` against a `GoFS`. -/
def lookupFile (fs : GoFS) (p : String) : Option (Option (List String)) :=
  (fs.files.find? (fun e => e.1 == p)).map (fun e => e.2)

/-- `Scanner.ScanFile`: unsupported extension and unreadable file are the two
error returns; otherwise the content is analyzed into a `FileInfo`. -/
def ScanFile (fs : GoFS) (filePath : String) : Except String FileInfo :=
  match detectFileType filePath with
  | none => .error ("unsupported file type: " ++ filePath)
  | some ft =>
    match lookupFile fs filePath with
    | some (some contentLines) => .ok (analyzeCopyright contentLines (initFileInfo filePath ft))
    | some none => .error ("failed to read file " ++ filePath)
    | none => .error ("failed to read file " ++ filePath)

/-- The files `filepath.Walk dirPath` visits: those whose path lies below
`dirPath`, in list (lexical) order. -/
def filesUnder (fs : GoFS) (dirPath : String) : List (String × Option (List String)) :=
  fs.files.filter (fun e => isPrefixOfChars (dirPath ++ "/").data e.1.data)

/-- `Scanner.scanDirectory`: walk the directory; for each visited file with a
supported type run `ScanFile`, appending successes and skipping (after a
printed warning) per-file failures. Walk-level read-directory failures are
outside this model, so no error value is produced. -/
def scanDirectory (fs : GoFS) (dirPath : String) : List FileInfo :=
  (filesUnder fs dirPath).foldl
    (fun acc e =>
      match detectFileType e.1 with
      | none => acc
      | some _ =>
        match ScanFile fs e.1 with
        | .error _ => acc
        | .ok info => acc ++ [info])
    []

/-- `Scanner.ScanFiles`: directories (per `os.Stat`) are expanded by
`scanDirectory`; other paths go through `ScanFile`, with failures counted.
The second component is the number of accumulated errors; the Go function
returns a non-nil error exactly when it is positive. -/
def ScanFiles (fs : GoFS) (filePaths : List String) : List FileInfo × Nat :=
  filePaths.foldl
    (fun acc path =>
      if fs.dirs.contains path then (acc.1 ++ scanDirectory fs path, acc.2)
      else
        match ScanFile fs path with
        | .error _ => (acc.1, acc.2 + 1)
        | .ok info => (acc.1 ++ [info], acc.2))
    ([], 0)

/-- `config.Config`. -/
structure Config where
  CompanyName : String
  NoticeFormat : String
  AutoFix : Bool
  FilePatterns : List String
  ExcludePatterns : List String
deriving DecidableEq

/-- `config.DefaultConfig`. -/
def DefaultConfig : Config :=
  { CompanyName := "Your Company",
    NoticeFormat := "Copyright (C) $year $company_name. All rights reserved.",
    AutoFix := false,
    FilePatterns := ["*.go", "*.py", "*.js", "*.ts", "*.java", "*.cpp", "*.c", "*.h"],
    ExcludePatterns := ["vendor/", "node_modules/", ".git/", "*.pb.go", "*_generated.go"] }

/-- `strings.ReplaceAll` on character lists: leftmost, non-overlapping. The
empty-pattern case (which in Go inserts between runes) is not modelled; no
caller passes an empty pattern. -/
def replaceAllChars (pat rep : List Char) : List Char → List Char
  | [] => []
  | c :: cs =>
    if h : pat ≠ [] ∧ isPrefixOfChars pat (c :: cs) = true then
      rep ++ replaceAllChars pat rep ((c :: cs).drop pat.length)
    else
      c :: replaceAllChars pat rep cs
termination_by s => s.length
decreasing_by
  all_goals simp_wf
  all_goals
    first
      | omega
      | (have hp : 1 ≤ pat.length := by
           cases pat with
           | nil => exact absurd rfl h.1
           | cons a l => simp
         simp [List.length_drop]
         omega)

/-- `strings.ReplaceAll` on strings. -/
def replaceAllStr (s pat rep : String) : String :=
  String.mk (replaceAllChars pat.data rep.data s.data)

/-- Decimal digit character. -/
def digitChar : Nat → Char
  | 0 => '0' | 1 => '1' | 2 => '2' | 3 => '3' | 4 => '4'
  | 5 => '5' | 6 => '6' | 7 => '7' | 8 => '8' | _ => '9'

/-- Decimal digits of a natural number (`fmt.Sprintf("%d", n)` for the
non-negative values `time.Now().Year()` produces). -/
def natDigitsList (n : Nat) : List Char :=
  if h : n < 10 then [digitChar n]
  else natDigitsList (n / 10) ++ [digitChar (n % 10)]
decreasing_by exact Nat.div_lt_self (by omega) (by omega)

/-- `fmt.Sprintf("%d", n)`. -/
def natToString (n : Nat) : String := String.mk (natDigitsList n)

/-- `Config.GenerateNotice`, with `time.Now().Year()` passed explicitly. -/
def GenerateNotice (c : Config) (currentYear : Nat) : String :=
  let notice := c.NoticeFormat
  let notice := replaceAllStr notice "$company_name" c.CompanyName
  let notice := replaceAllStr notice "$year" (natToString currentYear)
  let notice := replaceAllStr notice "$current_year" (natToString currentYear)
  notice

/-- `path/filepath.Match` on character lists, with an explicit fuel
argument making the recursion structural: `*` matches any run of
non-separator characters, `?` a single non-separator character, every other
character itself. Each step shrinks `pat.length + name.length`, so any fuel
above that sum computes the match. Character classes and backslash escapes
are not modelled; no pattern of this repository uses them. -/
def goMatchFuel : Nat → List Char → List Char → Bool
  | 0, _, _ => false
  | _ + 1, [], name => name.isEmpty
  | fuel + 1, p :: ps, name =>
    if p = '*' then
      match name with
      | [] => goMatchFuel fuel ps []
      | c :: cs => goMatchFuel fuel ps (c :: cs) || (c ≠ '/' && goMatchFuel fuel (p :: ps) cs)
    else
      match name with
      | [] => false
      | c :: cs =>
        if p = '?' then c ≠ '/' && goMatchFuel fuel ps cs
        else p = c && goMatchFuel fuel ps cs

/-- `path/filepath.Match` on character lists: the fuelled matcher run with
enough fuel. -/
def goMatchChars (pat name : List Char) : Bool :=
  goMatchFuel (pat.length + name.length + 1) pat name

/-- `path/filepath.Match` on strings. -/
def goMatch (pat name : String) : Bool := goMatchChars pat.data name.data

/-- `Config.ShouldProcessFile`: any exclude pattern that glob-matches the
full path, or whose text (with a trailing `/` stripped) occurs anywhere in
the path, rejects the file; otherwise some include pattern must glob-match
the base name. -/
def ShouldProcessFile (c : Config) (filePath : String) : Bool :=
  if c.ExcludePatterns.any
      (fun pat => goMatch pat filePath || strContainsStr filePath (trimSuffixStr pat "/")) then
    false
  else
    c.FilePatterns.any (fun pat => goMatch pat (filepathBase filePath))

/-- Concrete input for claim C3: one blank line, nineteen filler lines, then
a notice on physical line 21. -/
def c3lines : List String :=
  "" :: List.replicate 19 "package main" ++ ["// Copyright 2020"]

/-- Concrete file system for claim C6: one supported and one
unsupported-extension file, both listed directly. -/
def c6fs : GoFS :=
  { files := [("a.go", some ["package main"]), ("b.txt", some ["hello"])], dirs := [] }

/-- Concrete configuration for claim C7. -/
def c7config : Config :=
  { CompanyName := "Your Company",
    NoticeFormat := "Copyright (C) $year $company_name. All rights reserved.",
    AutoFix := false, FilePatterns := ["*.go"], ExcludePatterns := ["vendor/"] }

/-- Concrete configuration for claim C8: a format holding only an
unresolvable placeholder-like token. -/
def c8config : Config :=
  { CompanyName := "Acme Inc", NoticeFormat := "$author note", AutoFix := false,
    FilePatterns := [], ExcludePatterns := [] }

/-- Concrete file system for claim C9: a directory with a supported file, an
unsupported file and an unreadable supported file beneath it. -/
def c9fs : GoFS :=
  { files := [("src/a.go", some ["// Copyright 2024"]), ("src/b.txt", some ["hello"]),
              ("src/c.go", none)],
    dirs := ["src"] }

/-! Helper lemmas about the embedded definitions. -/

theorem trimSpace_empty : trimSpace "" = "" := rfl

theorem trimPrefixStr_empty (p : String) : trimPrefixStr "" p = "" := by
  have h0 : ("".data : List Char) = [] := rfl
  unfold trimPrefixStr
  rw [h0]
  cases hp : p.data with
  | nil => simp [hp, isPrefixOfChars]
  | cons a l => simp [hp, isPrefixOfChars]

theorem trimSuffixStr_empty (p : String) : trimSuffixStr "" p = "" := by
  have h0 : ("".data : List Char) = [] := rfl
  unfold trimSuffixStr
  rw [h0]
  cases hp : p.data.reverse with
  | nil => simp [hp, isPrefixOfChars]
  | cons a l => simp [hp, isPrefixOfChars]

theorem removeCommentMarkers_empty (ft : FileType) : removeCommentMarkers "" ft = "" := by
  unfold removeCommentMarkers
  split <;> split <;> split <;>
    simp_all [trimPrefixStr_empty, trimSuffixStr_empty, trimSpace_empty]

theorem copyrightRegexMatch_empty : copyrightRegexMatch "" = false := by decide

theorem trimSpace_ne_of_match (ft : FileType) (l : String)
    (h : copyrightRegexMatch (removeCommentMarkers (trimSpace l) ft) = true) :
    trimSpace l ≠ "" := by
  intro he
  rw [he, removeCommentMarkers_empty, copyrightRegexMatch_empty] at h
  exact Bool.false_ne_true h

theorem analyzeLoop_stop (ft : FileType) (lines : List String) (n : Nat) (hn : 20 ≤ n) :
    analyzeLoop ft lines n = none := by
  cases lines with
  | nil => rfl
  | cons a l => simp [analyzeLoop, show ¬ n < 20 from by omega]

theorem analyzeLoop_cons_skip (ft : FileType) (x : String) (ls : List String) (n : Nat)
    (h : n < 20)
    (hx : trimSpace x = "" ∨
      copyrightRegexMatch (removeCommentMarkers (trimSpace x) ft) = false) :
    analyzeLoop ft (x :: ls) n = analyzeLoop ft ls (n + 1) := by
  rcases hx with hb | hm
  · simp [analyzeLoop, h, hb]
  · by_cases hb : trimSpace x = ""
    · simp [analyzeLoop, h, hb]
    · simp [analyzeLoop, h, hb, hm]

theorem analyzeLoop_cons_match (ft : FileType) (l : String) (ls : List String) (n : Nat)
    (h : n < 20)
    (hm : copyrightRegexMatch (removeCommentMarkers (trimSpace l) ft) = true) :
    analyzeLoop ft (l :: ls) n =
      some (n + 1, trimSpace l, removeCommentMarkers (trimSpace l) ft) := by
  have hb := trimSpace_ne_of_match ft l hm
  simp [analyzeLoop, h, hb, hm]

theorem analyzeLoop_append_skip (ft : FileType) (pre rest : List String) (n : Nat)
    (hpre : ∀ x ∈ pre, trimSpace x = "" ∨
      copyrightRegexMatch (removeCommentMarkers (trimSpace x) ft) = false) :
    analyzeLoop ft (pre ++ rest) n =
      if n + pre.length < 20 then analyzeLoop ft rest (n + pre.length) else none := by
  induction pre generalizing n with
  | nil =>
    simp only [List.nil_append, List.length_nil, Nat.add_zero]
    by_cases h : n < 20
    · rw [if_pos h]
    · rw [if_neg h]
      exact analyzeLoop_stop ft rest n (by omega)
  | cons x xs ih =>
    rw [List.cons_append]
    by_cases h : n < 20
    · rw [analyzeLoop_cons_skip ft x (xs ++ rest) n h (hpre x (by simp))]
      rw [ih (n + 1) (fun y hy => hpre y (by simp [hy]))]
      have harith : n + 1 + xs.length = n + (x :: xs).length := by simp; omega
      rw [harith]
    · rw [analyzeLoop_stop ft _ n (by omega)]
      rw [if_neg (by simp; omega)]

theorem analyzeCopyright_loop_none (lines : List String) (info : FileInfo)
    (h : analyzeLoop info.Type' lines 0 = none) : analyzeCopyright lines info = info := by
  simp [analyzeCopyright, h]

theorem analyzeCopyright_loop_some (lines : List String) (info : FileInfo)
    (n : Nat) (raw clean : String)
    (h : analyzeLoop info.Type' lines 0 = some (n, raw, clean)) :
    (analyzeCopyright lines info).HasCopyright = true ∧
    (analyzeCopyright lines info).LineNumber = (n : Int) ∧
    (analyzeCopyright lines info).CopyrightNotice = raw ∧
    (yearRegexFindAll clean = [] →
      (analyzeCopyright lines info).CopyrightYear = info.CopyrightYear) ∧
    (∀ y ys, yearRegexFindAll clean = y :: ys →
      (analyzeCopyright lines info).CopyrightYear =
        (if 0 < parseInt ((y :: ys).getLast (List.cons_ne_nil y ys))
         then parseInt ((y :: ys).getLast (List.cons_ne_nil y ys))
         else info.CopyrightYear)) := by
  unfold analyzeCopyright
  rw [h]
  cases hy : yearRegexFindAll clean with
  | nil => simp [hy]
  | cons y ys =>
    simp only [hy]
    refine ⟨?_, ?_, ?_, by simp, ?_⟩
    · split <;> rfl
    · split <;> rfl
    · split <;> rfl
    · intro y2 ys2 heq
      cases heq
      by_cases hp : 0 < parseInt ((y :: ys).getLast (List.cons_ne_nil y ys))
      · rw [if_pos hp, if_pos hp]
      · rw [if_neg hp, if_neg hp]

theorem yearScan_mem_shape (prev : Option Char) (s : List Char) :
    ∀ tok ∈ yearScan prev s, ∃ c1 c2 c3 c4, tok = String.mk [c1, c2, c3, c4] ∧
      ((c1 = '1' ∧ c2 = '9') ∨ (c1 = '2' ∧ c2 = '0')) ∧
      c3.isDigit = true ∧ c4.isDigit = true := by
  induction prev, s using yearScan.induct with
  | case1 prev => rw [yearScan.eq_def]; simp
  | case2 prev a => rw [yearScan.eq_def]; simp
  | case3 prev a b => rw [yearScan.eq_def]; simp
  | case4 prev a b c => rw [yearScan.eq_def]; simp
  | case5 prev c1 c2 c3 c4 rest hcond ih =>
    rw [yearScan.eq_def]
    simp only [if_pos hcond]
    intro tok htok
    rcases List.mem_cons.mp htok with heq | hmem
    · subst heq
      simp only [Bool.and_eq_true, Bool.or_eq_true, decide_eq_true_eq] at hcond
      exact ⟨c1, c2, c3, c4, rfl, by tauto, hcond.1.1.2, hcond.1.2⟩
    · exact ih tok hmem
  | case6 prev c1 c2 c3 c4 rest hcond ih =>
    rw [yearScan.eq_def]
    simp only [if_neg hcond]
    exact ih

theorem parseInt_year_pos (c1 c2 c3 c4 : Char)
    (h12 : (c1 = '1' ∧ c2 = '9') ∨ (c1 = '2' ∧ c2 = '0'))
    (h3 : c3.isDigit = true) (h4 : c4.isDigit = true) :
    0 < parseInt (String.mk [c1, c2, c3, c4]) := by
  have hd1 : c1.isDigit = true := by
    rcases h12 with ⟨h, _⟩ | ⟨h, _⟩ <;> subst h <;> decide
  have hd2 : c2.isDigit = true := by
    rcases h12 with ⟨_, h⟩ | ⟨_, h⟩ <;> subst h <;> decide
  have hdata : (String.mk [c1, c2, c3, c4]).data = [c1, c2, c3, c4] := rfl
  unfold parseInt
  rw [hdata]
  simp only [List.takeWhile_cons, hd1, hd2, h3, h4, ite_true, List.takeWhile_nil,
    List.foldl_cons, List.foldl_nil]
  rcases h12 with ⟨ha, hb⟩ | ⟨ha, hb⟩ <;> subst ha <;> subst hb
  · rw [show ('1'.toNat : Nat) = 49 from rfl, show ('9'.toNat : Nat) = 57 from rfl]
    omega
  · rw [show ('2'.toNat : Nat) = 50 from rfl, show ('0'.toNat : Nat) = 48 from rfl]
    omega

theorem yearRegexFindAll_getLast_pos (clean : String) (y : String) (ys : List String)
    (h : yearRegexFindAll clean = y :: ys) :
    0 < parseInt ((y :: ys).getLast (List.cons_ne_nil y ys)) := by
  have hmem : (y :: ys).getLast (List.cons_ne_nil y ys) ∈ yearRegexFindAll clean := by
    rw [h]
    exact List.getLast_mem _
  obtain ⟨c1, c2, c3, c4, heq, h12, h3, h4⟩ :=
    yearScan_mem_shape none clean.data _ hmem
  rw [heq]
  exact parseInt_year_pos c1 c2 c3 c4 h12 h3 h4

theorem isPrefixOfChars_refl (l : List Char) : isPrefixOfChars l l = true := by
  induction l with
  | nil => rfl
  | cons a t ih => simp [isPrefixOfChars, ih]

theorem replaceAllChars_not_contains (pat rep s : List Char)
    (h : strContainsChars s pat = false) : replaceAllChars pat rep s = s := by
  induction s with
  | nil => rw [replaceAllChars]
  | cons c cs ih =>
    rw [strContainsChars] at h
    simp only [Bool.or_eq_false_iff] at h
    rw [replaceAllChars, dif_neg (by simp [h.1]), ih h.2]

theorem replaceAllChars_self (pat rep : List Char) (hp : pat ≠ []) :
    replaceAllChars pat rep pat = rep := by
  cases pat with
  | nil => exact absurd rfl hp
  | cons p ps =>
    rw [replaceAllChars, dif_pos ⟨hp, isPrefixOfChars_refl _⟩]
    rw [List.drop_length, replaceAllChars, List.append_nil]

theorem digitChar_ne_dollar (n : Nat) : digitChar n ≠ '$' := by
  unfold digitChar
  split <;> decide

theorem natDigitsList_ne_dollar (n : Nat) : ∀ c ∈ natDigitsList n, c ≠ '$' := by
  induction n using Nat.strong_induction_on with
  | _ n ih =>
    unfold natDigitsList
    split
    · intro c hc
      rw [List.mem_singleton] at hc
      subst hc
      exact digitChar_ne_dollar n
    · intro c hc
      rcases List.mem_append.mp hc with hc | hc
      · exact ih (n / 10) (Nat.div_lt_self (by omega) (by omega)) c hc
      · rw [List.mem_singleton] at hc
        subst hc
        exact digitChar_ne_dollar (n % 10)

theorem strContainsChars_head_notin (s t : List Char) (h0 : Char)
    (h : ∀ c ∈ s, c ≠ h0) : strContainsChars s (h0 :: t) = false := by
  induction s with
  | nil => rfl
  | cons c cs ih =>
    rw [strContainsChars]
    simp only [Bool.or_eq_false_iff]
    constructor
    · rw [isPrefixOfChars, if_neg]
      exact fun he => h c (by simp) he.symm
    · exact ih (fun x hx => h x (by simp [hx]))

theorem natToString_no_dollar_sub (n : Nat) (t : List Char) :
    strContainsChars (natToString n).data ('$' :: t) = false :=
  strContainsChars_head_notin _ t '$' (fun c hc => natDigitsList_ne_dollar n c hc)

theorem goMatchFuel_zero (pat name : List Char) : goMatchFuel 0 pat name = false := rfl

theorem goMatchFuel_nil (f : Nat) (name : List Char) :
    goMatchFuel (f + 1) [] name = name.isEmpty := rfl

theorem goMatchFuel_cons_cons (f : Nat) (p : Char) (ps : List Char) (c : Char)
    (cs : List Char) :
    goMatchFuel (f + 1) (p :: ps) (c :: cs) =
      if p = '*' then goMatchFuel f ps (c :: cs) || (c ≠ '/' && goMatchFuel f (p :: ps) cs)
      else if p = '?' then c ≠ '/' && goMatchFuel f ps cs
      else p = c && goMatchFuel f ps cs := rfl

theorem goMatchFuel_sep (fuel : Nat) : ∀ (pat name : List Char),
    goMatchFuel fuel pat name = true → '/' ∈ name → '/' ∈ pat := by
  induction fuel with
  | zero =>
    intro pat name hm hn
    rw [goMatchFuel_zero] at hm
    exact absurd hm Bool.false_ne_true
  | succ f ih =>
    intro pat name hm hn
    cases pat with
    | nil =>
      cases name with
      | nil => simp at hn
      | cons c cs =>
        rw [goMatchFuel_nil] at hm
        simp [List.isEmpty] at hm
    | cons p ps =>
      cases name with
      | nil => simp at hn
      | cons c cs =>
        rw [goMatchFuel_cons_cons] at hm
        by_cases hstar : p = '*'
        · rw [if_pos hstar] at hm
          rcases (Bool.or_eq_true _ _).mp hm with h1 | h2
          · exact List.mem_cons_of_mem p (ih ps (c :: cs) h1 hn)
          · have h2' := (Bool.and_eq_true _ _).mp h2
            rcases List.mem_cons.mp hn with hc | hcs
            · exact absurd hc.symm (by simpa using h2'.1)
            · exact ih (p :: ps) cs h2'.2 hcs
        · rw [if_neg hstar] at hm
          by_cases hq : p = '?'
          · rw [if_pos hq] at hm
            have h' := (Bool.and_eq_true _ _).mp hm
            rcases List.mem_cons.mp hn with hc | hcs
            · exact absurd hc.symm (by simpa using h'.1)
            · exact List.mem_cons_of_mem p (ih ps cs h'.2 hcs)
          · rw [if_neg hq] at hm
            have h' := (Bool.and_eq_true _ _).mp hm
            rcases List.mem_cons.mp hn with hc | hcs
            · have hpc : p = c := by simpa using h'.1
              have hps : p = '/' := hpc.trans hc.symm
              rw [← hps]
              exact List.mem_cons_self p ps
            · exact List.mem_cons_of_mem p (ih ps cs h'.2 hcs)

theorem goMatchChars_sep (pat name : List Char)
    (hm : goMatchChars pat name = true) (hn : '/' ∈ name) : '/' ∈ pat :=
  goMatchFuel_sep (pat.length + name.length + 1) pat name hm hn

theorem ScanFiles_append_one (fs : GoFS) (paths : List String) (p : String) :
    ScanFiles fs (paths ++ [p]) =
      (if fs.dirs.contains p then
        ((ScanFiles fs paths).1 ++ scanDirectory fs p, (ScanFiles fs paths).2)
      else
        match ScanFile fs p with
        | .error _ => ((ScanFiles fs paths).1, (ScanFiles fs paths).2 + 1)
        | .ok info => ((ScanFiles fs paths).1 ++ [info], (ScanFiles fs paths).2)) := by
  unfold ScanFiles
  rw [List.foldl_append, List.foldl_cons, List.foldl_nil]

theorem foldl_scanStep_filterMap (fs : GoFS) (l : List (String × Option (List String)))
    (acc : List FileInfo) :
    l.foldl
      (fun acc e =>
        match detectFileType e.1 with
        | none => acc
        | some _ =>
          match ScanFile fs e.1 with
          | .error _ => acc
          | .ok info => acc ++ [info]) acc =
    acc ++ l.filterMap
      (fun e =>
        match detectFileType e.1 with
        | none => none
        | some _ =>
          match ScanFile fs e.1 with
          | .error _ => none
          | .ok info => some info) := by
  induction l generalizing acc with
  | nil => simp
  | cons e t ih =>
    rw [List.foldl_cons, List.filterMap_cons]
    cases hd : detectFileType e.1 with
    | none =>
      simp only [hd]
      exact ih acc
    | some ft =>
      cases hsf : ScanFile fs e.1 with
      | error msg =>
        simp only [hd, hsf]
        exact ih acc
      | ok info =>
        simp only [hd, hsf]
        rw [ih (acc ++ [info])]
        simp

theorem scanDirectory_eq_filterMap (fs : GoFS) (d : String) :
    scanDirectory fs d = (filesUnder fs d).filterMap
      (fun e =>
        match detectFileType e.1 with
        | none => none
        | some _ =>
          match ScanFile fs e.1 with
          | .error _ => none
          | .ok info => some info) := by
  unfold scanDirectory
  rw [foldl_scanStep_filterMap]
  simp

theorem string_mk_data (s : String) : String.mk s.data = s := rfl

theorem GenerateNotice_eq (c : Config) (y : Nat) :
    GenerateNotice c y =
      replaceAllStr (replaceAllStr (replaceAllStr c.NoticeFormat "$company_name" c.CompanyName)
        "$year" (natToString y)) "$current_year" (natToString y) := rfl

theorem replaceAllStr_not_contains (s pat rep : String)
    (h : strContainsStr s pat = false) : replaceAllStr s pat rep = s := by
  unfold replaceAllStr
  unfold strContainsStr at h
  rw [replaceAllChars_not_contains _ _ _ h]

theorem replaceAllStr_self (pat rep : String) (h : pat.data ≠ []) :
    replaceAllStr pat pat rep = rep := by
  unfold replaceAllStr
  rw [replaceAllChars_self _ _ h]

theorem natToString_not_contains_cy (y : Nat) :
    strContainsStr (natToString y) "$current_year" = false := by
  unfold strContainsStr
  have hd : ("$current_year".data : List Char) = '$' :: "current_year".data := rfl
  rw [hd]
  exact natToString_no_dollar_sub y _

/-! Theorems settling the claims. -/

/-- Claim C1, counterexample: the detector's pattern
`(?i)copyright\s*(\(c\))?\s*(\d{4})?` has no word boundary, so the line
"noncopyrightable content" does set `HasCopyright = true`, contradicting
the claim that it must not. -/
theorem C1_counterexample :
    (analyzeCopyright ["noncopyrightable content"]
      (initFileInfo "a.go" goFileType)).HasCopyright = true := by decide

/-- Claim C1, amended: the copyright pattern matches the letters of
"copyright" as a case-insensitive substring with no token boundary; any
first line whose cleaned text contains them — even inside an unrelated word
such as "noncopyrightable" — is recorded as a notice. -/
theorem C1_amended (p : String) (ft : FileType) (l : String) (post : List String)
    (hl : strContainsChars ((removeCommentMarkers (trimSpace l) ft).data.map asciiLower)
            "copyright".data = true) :
    (analyzeCopyright (l :: post) (initFileInfo p ft)).HasCopyright = true ∧
    (analyzeCopyright ["noncopyrightable content"]
      (initFileInfo "b.go" goFileType)).HasCopyright = true := by
  have hm : copyrightRegexMatch (removeCommentMarkers (trimSpace l) ft) = true := hl
  constructor
  · have hloop : analyzeLoop (initFileInfo p ft).Type' (l :: post) 0 =
        some (1, trimSpace l, removeCommentMarkers (trimSpace l) ft) :=
      analyzeLoop_cons_match ft l post 0 (by omega) hm
    exact (analyzeCopyright_loop_some (l :: post) (initFileInfo p ft) 1 (trimSpace l)
      (removeCommentMarkers (trimSpace l) ft) hloop).1
  · decide

/-- Claim C1 witness: the amended statement applied to a genuine notice
line. -/
theorem C1_witness :
    (analyzeCopyright ["// Copyright 2024 Acme"]
      (initFileInfo "w.go" goFileType)).HasCopyright = true :=
  (C1_amended "w.go" goFileType "// Copyright 2024 Acme" [] (by decide)).1

/-- Claim C2: the detector examines exactly the first 20 lines. A
copyright-matching line preceded by 19 non-matching, non-blank lines (so on
line 20) is found; the same line preceded by 20 such lines (so on line 21)
is not. -/
theorem C2_window (p : String) (ft : FileType) (pre20 pre21 : List String) (l : String)
    (post : List String)
    (h19 : pre20.length = 19) (h20 : pre21.length = 20)
    (hpre1 : ∀ x ∈ pre20, trimSpace x ≠ "" ∧
      copyrightRegexMatch (removeCommentMarkers (trimSpace x) ft) = false)
    (hpre2 : ∀ x ∈ pre21, trimSpace x ≠ "" ∧
      copyrightRegexMatch (removeCommentMarkers (trimSpace x) ft) = false)
    (hl : copyrightRegexMatch (removeCommentMarkers (trimSpace l) ft) = true) :
    (analyzeCopyright (pre20 ++ l :: post) (initFileInfo p ft)).HasCopyright = true ∧
    (analyzeCopyright (pre21 ++ l :: post) (initFileInfo p ft)).HasCopyright = false := by
  constructor
  · have hloop : analyzeLoop (initFileInfo p ft).Type' (pre20 ++ l :: post) 0 =
        some (20, trimSpace l, removeCommentMarkers (trimSpace l) ft) := by
      show analyzeLoop ft _ _ = _
      rw [analyzeLoop_append_skip ft pre20 (l :: post) 0
        (fun x hx => Or.inr (hpre1 x hx).2)]
      rw [h19, Nat.zero_add, if_pos (by omega)]
      exact analyzeLoop_cons_match ft l post 19 (by omega) hl
    exact (analyzeCopyright_loop_some (pre20 ++ l :: post) (initFileInfo p ft) 20 (trimSpace l)
      (removeCommentMarkers (trimSpace l) ft) hloop).1
  · have hloop : analyzeLoop (initFileInfo p ft).Type' (pre21 ++ l :: post) 0 = none := by
      show analyzeLoop ft _ _ = _
      rw [analyzeLoop_append_skip ft pre21 (l :: post) 0
        (fun x hx => Or.inr (hpre2 x hx).2)]
      rw [h20, Nat.zero_add, if_neg (by omega)]
    rw [analyzeCopyright_loop_none (pre21 ++ l :: post) (initFileInfo p ft) hloop]
    rfl

/-- Claim C2 witness: the window boundary at concrete inputs. -/
theorem C2_witness :
    (analyzeCopyright (List.replicate 19 "package main" ++ ["// Copyright 2024"])
      (initFileInfo "w.go" goFileType)).HasCopyright = true ∧
    (analyzeCopyright (List.replicate 20 "package main" ++ ["// Copyright 2024"])
      (initFileInfo "w.go" goFileType)).HasCopyright = false :=
  C2_window "w.go" goFileType (List.replicate 19 "package main")
    (List.replicate 20 "package main") "// Copyright 2024" []
    (by decide) (by decide) (by decide) (by decide) (by decide)

/-- Claim C3, counterexample: one leading blank line followed by 19 filler
lines and a notice on physical line 21 (k = 1, so the notice is at line
20 + k). The scan reports no notice, because a blank line does consume the
20-line window, contradicting the claim that the scan still succeeds. -/
theorem C3_counterexample :
    (analyzeCopyright c3lines (initFileInfo "a.go" goFileType)).HasCopyright = false := by
  decide

/-- Claim C3, amended: blank lines do count toward the 20-line budget —
the counter is incremented for every line, blank or not, and the loop bound
is on that counter. Content beginning with k > 0 blank lines whose first
copyright-matching line sits at physical line 20 + k is classified as
having no notice. -/
theorem C3_amended (p : String) (ft : FileType) (blanks fillers : List String) (l : String)
    (post : List String)
    (hb : blanks ≠ []) (hball : ∀ x ∈ blanks, trimSpace x = "")
    (hf : fillers.length = 19)
    (hfall : ∀ x ∈ fillers, trimSpace x ≠ "" ∧
      copyrightRegexMatch (removeCommentMarkers (trimSpace x) ft) = false) :
    (analyzeCopyright (blanks ++ fillers ++ l :: post)
      (initFileInfo p ft)).HasCopyright = false := by
  have hskip : ∀ x ∈ blanks ++ fillers, trimSpace x = "" ∨
      copyrightRegexMatch (removeCommentMarkers (trimSpace x) ft) = false := by
    intro x hx
    rcases List.mem_append.mp hx with h | h
    · exact Or.inl (hball x h)
    · exact Or.inr (hfall x h).2
  have hloop : analyzeLoop (initFileInfo p ft).Type' (blanks ++ fillers ++ l :: post) 0
      = none := by
    show analyzeLoop ft _ _ = _
    rw [analyzeLoop_append_skip ft (blanks ++ fillers) (l :: post) 0 hskip]
    have hlen : 0 < blanks.length := List.length_pos.mpr hb
    rw [if_neg (by simp [hf]; omega)]
  rw [analyzeCopyright_loop_none _ (initFileInfo p ft) hloop]
  rfl

/-- Claim C3 witness: the amended statement at the concrete counterexample
input. -/
theorem C3_witness :
    (analyzeCopyright ([""] ++ List.replicate 19 "package main" ++ ["// Copyright 2020"])
      (initFileInfo "w.go" goFileType)).HasCopyright = false :=
  C3_amended "w.go" goFileType [""] (List.replicate 19 "package main") "// Copyright 2020" []
    (by decide) (by decide) (by decide) (by decide)

/-- Claim C4: on the first matching line (at 0-based offset `pre.length`,
so 1-based line `pre.length + 1`), the scan records the 1-based physical
line number, the whitespace-trimmed (not comment-stripped) raw line, and
the last 4-digit `19xx`/`20xx` token of the cleaned line as the year (0
when there is none); lines after the match never influence the result. In
particular "Copyright 1999 Acme, updated 2021" yields year 2021. -/
theorem C4_first_match (p : String) (ft : FileType) (pre : List String) (l : String)
    (post : List String)
    (hlen : pre.length < 20)
    (hpre : ∀ x ∈ pre, trimSpace x = "" ∨
      copyrightRegexMatch (removeCommentMarkers (trimSpace x) ft) = false)
    (hl : copyrightRegexMatch (removeCommentMarkers (trimSpace l) ft) = true) :
    ((analyzeCopyright (pre ++ l :: post) (initFileInfo p ft)).HasCopyright = true ∧
     (analyzeCopyright (pre ++ l :: post) (initFileInfo p ft)).LineNumber =
       (pre.length : Int) + 1 ∧
     (analyzeCopyright (pre ++ l :: post) (initFileInfo p ft)).CopyrightNotice = trimSpace l ∧
     (yearRegexFindAll (removeCommentMarkers (trimSpace l) ft) = [] →
        (analyzeCopyright (pre ++ l :: post) (initFileInfo p ft)).CopyrightYear = 0) ∧
     (∀ y ys, yearRegexFindAll (removeCommentMarkers (trimSpace l) ft) = y :: ys →
        (analyzeCopyright (pre ++ l :: post) (initFileInfo p ft)).CopyrightYear =
          parseInt ((y :: ys).getLast (List.cons_ne_nil y ys)))) ∧
    (analyzeCopyright ["Copyright 1999 Acme, updated 2021"]
      (initFileInfo "a.go" goFileType)).CopyrightYear = 2021 := by
  refine ⟨?_, by decide⟩
  have hloop : analyzeLoop (initFileInfo p ft).Type' (pre ++ l :: post) 0 =
      some (pre.length + 1, trimSpace l, removeCommentMarkers (trimSpace l) ft) := by
    show analyzeLoop ft _ _ = _
    rw [analyzeLoop_append_skip ft pre (l :: post) 0 hpre]
    rw [Nat.zero_add, if_pos hlen]
    exact analyzeLoop_cons_match ft l post pre.length hlen hl
  have hsome := analyzeCopyright_loop_some (pre ++ l :: post) (initFileInfo p ft)
    (pre.length + 1) (trimSpace l) (removeCommentMarkers (trimSpace l) ft) hloop
  refine ⟨hsome.1, ?_, hsome.2.2.1, ?_, ?_⟩
  · rw [hsome.2.1]
    push_cast
    ring
  · intro hnil
    rw [hsome.2.2.2.1 hnil]
    rfl
  · intro y ys hys
    rw [hsome.2.2.2.2 y ys hys]
    rw [if_pos (yearRegexFindAll_getLast_pos _ y ys hys)]

/-- Claim C4 witness: a match on line 2 with two year tokens; the last one
is recorded. -/
theorem C4_witness :
    (analyzeCopyright (["package main"] ++ ["// Copyright 2019 Acme 2024"])
      (initFileInfo "w.go" goFileType)).HasCopyright = true ∧
    (analyzeCopyright (["package main"] ++ ["// Copyright 2019 Acme 2024"])
      (initFileInfo "w.go" goFileType)).LineNumber = 2 ∧
    (analyzeCopyright (["package main"] ++ ["// Copyright 2019 Acme 2024"])
      (initFileInfo "w.go" goFileType)).CopyrightNotice = "// Copyright 2019 Acme 2024" ∧
    (analyzeCopyright (["package main"] ++ ["// Copyright 2019 Acme 2024"])
      (initFileInfo "w.go" goFileType)).CopyrightYear = 2024 := by
  have h := C4_first_match "w.go" goFileType ["package main"] "// Copyright 2019 Acme 2024" []
    (by decide) (by decide) (by decide)
  refine ⟨h.1.1, ?_, ?_, ?_⟩
  · rw [h.1.2.1]
    decide
  · rw [h.1.2.2.1]
    decide
  · rw [h.1.2.2.2.2 "2019" ["2024"] (by decide)]
    decide

/-- Claim C5, counterexample: for content with no notice the returned
`LineNumber` is the Go zero value 0, not the claimed −1. -/
theorem C5_counterexample :
    (analyzeCopyright ["package main"] (initFileInfo "a.go" goFileType)).HasCopyright = false ∧
    ¬ (analyzeCopyright ["package main"] (initFileInfo "a.go" goFileType)).LineNumber = -1 := by
  constructor <;> decide

/-- Claim C5, amended: when no notice is found in the window, every field
keeps its Go zero value — `LineNumber = 0` (not −1), `CopyrightYear = 0`
and an empty `CopyrightNotice`. -/
theorem C5_amended (p : String) (ft : FileType) (lines : List String)
    (h : (analyzeCopyright lines (initFileInfo p ft)).HasCopyright = false) :
    (analyzeCopyright lines (initFileInfo p ft)).LineNumber = 0 ∧
    (analyzeCopyright lines (initFileInfo p ft)).CopyrightYear = 0 ∧
    (analyzeCopyright lines (initFileInfo p ft)).CopyrightNotice = "" := by
  cases hloop : analyzeLoop (initFileInfo p ft).Type' lines 0 with
  | none =>
    rw [analyzeCopyright_loop_none lines (initFileInfo p ft) hloop]
    exact ⟨rfl, rfl, rfl⟩
  | some t =>
    obtain ⟨n, raw, clean⟩ := t
    have htrue := (analyzeCopyright_loop_some lines (initFileInfo p ft) n raw clean hloop).1
    rw [htrue] at h
    exact absurd h (by simp)

/-- Claim C5 witness: the amended statement at a concrete no-notice file. -/
theorem C5_witness :
    (analyzeCopyright ["package main"] (initFileInfo "w.go" goFileType)).LineNumber = 0 ∧
    (analyzeCopyright ["package main"] (initFileInfo "w.go" goFileType)).CopyrightYear = 0 ∧
    (analyzeCopyright ["package main"] (initFileInfo "w.go" goFileType)).CopyrightNotice = "" :=
  C5_amended "w.go" goFileType ["package main"] (by decide)

/-- Claim C6, counterexample: adding a directly listed
unsupported-extension file ("b.txt") leaves the results unchanged but
changes the error outcome — `ScanFiles` counts an error for it instead of
excluding it silently. -/
theorem C6_counterexample :
    (ScanFiles c6fs ["a.go", "b.txt"]).1 = (ScanFiles c6fs ["a.go"]).1 ∧
    ¬ (ScanFiles c6fs ["a.go", "b.txt"]).2 = (ScanFiles c6fs ["a.go"]).2 := by
  constructor <;> decide

/-- Claim C6, amended: a directly listed file whose extension is not in the
registry is excluded from the results, but it is reported as an error —
`ScanFiles` returns the same result list and one more accumulated error
(hence a non-nil Go error) than without that path. Only files encountered
inside a directory walk are skipped silently. -/
theorem C6_amended (fs : GoFS) (paths : List String) (p : String)
    (hd : fs.dirs.contains p = false) (hu : detectFileType p = none) :
    (ScanFiles fs (paths ++ [p])).1 = (ScanFiles fs paths).1 ∧
    (ScanFiles fs (paths ++ [p])).2 = (ScanFiles fs paths).2 + 1 := by
  rw [ScanFiles_append_one]
  rw [if_neg (show ¬ fs.dirs.contains p = true from by rw [hd]; simp)]
  have herr : ScanFile fs p = Except.error ("unsupported file type: " ++ p) := by
    unfold ScanFile
    rw [hu]
  rw [herr]
  exact ⟨rfl, rfl⟩

/-- Claim C6 witness: the amended statement at the concrete file system. -/
theorem C6_witness :
    (ScanFiles c6fs (["a.go"] ++ ["b.txt"])).1 = (ScanFiles c6fs ["a.go"]).1 ∧
    (ScanFiles c6fs (["a.go"] ++ ["b.txt"])).2 = (ScanFiles c6fs ["a.go"]).2 + 1 :=
  C6_amended c6fs ["a.go"] "b.txt" (by decide) (by decide)

/-- Claim C7: any exclude-pattern hit (glob on the full path or substring
containment of the pattern with a trailing slash stripped) forces `false`
regardless of the include patterns; a path matching no include pattern is
`false` (default-deny); and with includes `["*.go"]`, excludes
`["vendor/"]`, the path "vendor/pkg/x.go" is excluded. -/
theorem C7_precedence :
    (∀ (c : Config) (fp pat : String), pat ∈ c.ExcludePatterns →
       (goMatch pat fp || strContainsStr fp (trimSuffixStr pat "/")) = true →
       ShouldProcessFile c fp = false) ∧
    (∀ (c : Config) (fp : String),
       (∀ pat ∈ c.FilePatterns, goMatch pat (filepathBase fp) = false) →
       ShouldProcessFile c fp = false) ∧
    ShouldProcessFile c7config "vendor/pkg/x.go" = false := by
  refine ⟨?_, ?_, by decide⟩
  · intro c fp pat hmem hhit
    have hany : c.ExcludePatterns.any
        (fun pat => goMatch pat fp || strContainsStr fp (trimSuffixStr pat "/")) = true :=
      List.any_eq_true.mpr ⟨pat, hmem, hhit⟩
    unfold ShouldProcessFile
    rw [if_pos hany]
  · intro c fp hnone
    unfold ShouldProcessFile
    by_cases hex : c.ExcludePatterns.any
        (fun pat => goMatch pat fp || strContainsStr fp (trimSuffixStr pat "/")) = true
    · rw [if_pos hex]
    · rw [if_neg hex]
      rw [Bool.eq_false_iff]
      intro hc
      obtain ⟨x, hx, hpx⟩ := List.any_eq_true.mp hc
      rw [hnone x hx] at hpx
      exact Bool.false_ne_true hpx

/-- Claim C7 witness: an exclude hit through substring containment, and a
default-deny miss, at concrete inputs. -/
theorem C7_witness :
    ShouldProcessFile c7config "src/myvendor.go" = false ∧
    ShouldProcessFile c7config "README.md" = false :=
  ⟨C7_precedence.1 c7config "src/myvendor.go" "vendor/" (by decide) (by decide),
   C7_precedence.2.1 c7config "README.md" (by decide)⟩

/-- Claim C8: notice rendering is pure sequential substitution —
`$company_name` becomes the configured company name, `$year` and
`$current_year` both become the same current-year text, and a format
containing none of the three tokens (such as one holding only `$author`)
is returned verbatim, with no error to raise. -/
theorem C8_generate_notice :
    (∀ (c : Config) (y : Nat),
       strContainsStr c.NoticeFormat "$company_name" = false →
       strContainsStr c.NoticeFormat "$year" = false →
       strContainsStr c.NoticeFormat "$current_year" = false →
       GenerateNotice c y = c.NoticeFormat) ∧
    (∀ (c : Config) (y : Nat), c.NoticeFormat = "$year" →
       GenerateNotice c y = natToString y) ∧
    (∀ (c : Config) (y : Nat), c.NoticeFormat = "$current_year" →
       GenerateNotice c y = natToString y) ∧
    (∀ (c : Config) (y : Nat), c.NoticeFormat = "$company_name" →
       strContainsStr c.CompanyName "$year" = false →
       strContainsStr c.CompanyName "$current_year" = false →
       GenerateNotice c y = c.CompanyName) := by
  refine ⟨?_, ?_, ?_, ?_⟩
  · intro c y h1 h2 h3
    rw [GenerateNotice_eq]
    rw [replaceAllStr_not_contains _ _ _ h1, replaceAllStr_not_contains _ _ _ h2,
        replaceAllStr_not_contains _ _ _ h3]
  · intro c y hf
    rw [GenerateNotice_eq, hf]
    rw [replaceAllStr_not_contains "$year" "$company_name" c.CompanyName (by decide)]
    rw [replaceAllStr_self "$year" (natToString y) (by decide)]
    exact replaceAllStr_not_contains _ _ _ (natToString_not_contains_cy y)
  · intro c y hf
    rw [GenerateNotice_eq, hf]
    rw [replaceAllStr_not_contains "$current_year" "$company_name" c.CompanyName (by decide)]
    rw [replaceAllStr_not_contains "$current_year" "$year" (natToString y) (by decide)]
    exact replaceAllStr_self "$current_year" (natToString y) (by decide)
  · intro c y hf h1 h2
    rw [GenerateNotice_eq, hf]
    rw [replaceAllStr_self "$company_name" c.CompanyName (by decide)]
    rw [replaceAllStr_not_contains _ _ _ h1, replaceAllStr_not_contains _ _ _ h2]

/-- Claim C8 witness: an unresolvable `$author` token survives verbatim,
and `$year` and `$current_year` render identically. -/
theorem C8_witness :
    GenerateNotice c8config 2025 = "$author note" ∧
    GenerateNotice { c8config with NoticeFormat := "$year" } 2025 =
      GenerateNotice { c8config with NoticeFormat := "$current_year" } 2025 := by
  constructor
  · exact C8_generate_notice.1 c8config 2025 (by decide) (by decide) (by decide)
  · rw [C8_generate_notice.2.1 _ 2025 rfl, C8_generate_notice.2.2.1 _ 2025 rfl]

/-- Claim C9: a path that names a directory never contributes to the error
count — `ScanFiles` appends the walk of that directory to the results — and
the walk scans exactly the readable supported files beneath it, silently
dropping unsupported files and files whose scan fails. -/
theorem C9_directories (fs : GoFS) (paths : List String) (d : String)
    (hd : fs.dirs.contains d = true) :
    ScanFiles fs (paths ++ [d]) =
      ((ScanFiles fs paths).1 ++ scanDirectory fs d, (ScanFiles fs paths).2) ∧
    scanDirectory fs d = (filesUnder fs d).filterMap
      (fun e =>
        match detectFileType e.1 with
        | none => none
        | some _ =>
          match ScanFile fs e.1 with
          | .error _ => none
          | .ok info => some info) := by
  constructor
  · rw [ScanFiles_append_one, if_pos hd]
  · exact scanDirectory_eq_filterMap fs d

/-- Claim C9 witness: scanning the directory "src" yields its single
readable supported file and no error; the unsupported "src/b.txt" and the
unreadable "src/c.go" are skipped. -/
theorem C9_witness :
    ScanFiles c9fs ["src"] = (scanDirectory c9fs "src", 0) ∧
    (scanDirectory c9fs "src").map (fun i => i.Path) = ["src/a.go"] := by
  have h := (C9_directories c9fs [] "src" (by decide)).1
  rw [List.nil_append] at h
  constructor
  · rw [h]
    rfl
  · decide

/-- Claim C10: a glob pattern containing no separator never matches a path
containing one (`*` does not cross `/`), so the default exclude "*.pb.go"
leaves "pkg/x.pb.go" processed, while the substring-containment arm of the
exclude check rejects "src/myvendor.go" against "vendor/". -/
theorem C10_exclude_matching :
    (∀ (pat name : String), ¬ '/' ∈ pat.data → '/' ∈ name.data →
       goMatch pat name = false) ∧
    ShouldProcessFile DefaultConfig "pkg/x.pb.go" = true ∧
    ShouldProcessFile DefaultConfig "src/myvendor.go" = false := by
  refine ⟨?_, by decide, by decide⟩
  intro pat name hp hn
  cases h : goMatch pat name with
  | false => rfl
  | true => exact absurd (goMatchChars_sep pat.data name.data h hn) hp

/-- Claim C10 witness: the separator property at the concrete default
exclude pattern. -/
theorem C10_witness : goMatch "*.pb.go" "pkg/x.pb.go" = false :=
  C10_exclude_matching.1 "*.pb.go" "pkg/x.pb.go" (by decide) (by decide)

end CopyrightTool
